import Mathlib

/-!
Shallow embedding of the Sprites VS Code filesystem bridge
(`src/spriteFileSystem.ts`).  The provider translates filesystem operations
into shell command strings executed on a remote target and parses the textual
output back into structured results.  Strings processed by the provider are
embedded as `List Char`; remote file contents are `List Nat` (byte values);
command strings sent to the transport are Lean `String`s built exactly as the
source template literals build them.

The remote side (the shell commands' behaviour on the sprite) is not part of
the repository; it is modelled here by `statOutput`, `b64ExecOut`,
`testExistsOut`, `mkdirp`, `rmApply`, `mvApply` and friends, following the
documented semantics of `stat`, `base64`, `test`, `mkdir -p`, `rm` and `mv`.
Per the transport contract, a non-zero remote exit status is not an execution
failure: `exec` resolves with whatever stdout/stderr the command produced.
-/

namespace SpriteFS

/-- File kinds, mirroring `vscode.FileType`. -/
inductive FileType where
  | unknown
  | file
  | directory
  | symbolicLink
deriving DecidableEq, Repr

/-- A `sprite://authority/path` URI, reduced to the two components the
provider reads (`uri.authority` and `uri.path`). -/
structure SpriteUri where
  authority : String
  path : String
deriving DecidableEq, Repr

/-- Embedding of `parseUri` (src lines 33-38): the sprite name is the
authority, the path is `uri.path || '/'`. -/
def parseUri (u : SpriteUri) : String × String :=
  (u.authority, if u.path = "" then "/" else u.path)

/-- The `vscode.FileSystemError` variants the provider throws. -/
inductive FsError where
  | fileNotFound (uri : SpriteUri)
  | fileExists (uri : SpriteUri)
  | noPermissions (msg : String)
  | unavailable (msg : String)
deriving DecidableEq, Repr

/-- Change event kinds, mirroring `vscode.FileChangeType`. -/
inductive ChangeType where
  | created
  | changed
  | deleted
deriving DecidableEq, Repr

/-- Model of a remote filesystem entry: a regular file with byte content, or
a directory. -/
inductive Entry where
  | file (content : List Nat)
  | dir
deriving DecidableEq, Repr

/-- Model of the remote filesystem: an association list from absolute path
strings to entries.  Earlier bindings shadow later ones. -/
abbrev FS := List (String × Entry)

/-- First-match lookup in the modelled filesystem. -/
def lookupFS : FS → String → Option Entry
  | [], _ => none
  | (q, e) :: t, p => if p = q then some e else lookupFS t p

/-- Insertion into the modelled filesystem (prepends, shadowing old bindings). -/
def insertFS (fs : FS) (p : String) (e : Entry) : FS := (p, e) :: fs

/-- Remote truth of `test -e`: the root always exists, other paths exist when
bound in the model. -/
def existsAt (fs : FS) (p : String) : Bool :=
  p = "/" || (lookupFS fs p).isSome

/-- Remote truth of `test -f`: the path is bound to a regular file. -/
def isFileAt (fs : FS) (p : String) : Bool :=
  match lookupFS fs p with
  | some (.file _) => true
  | _ => false

/-- The path denotes a directory (the root is always a directory). -/
def isDirAt (fs : FS) (p : String) : Bool :=
  p = "/" || decide (lookupFS fs p = some Entry.dir)

/-- Result of one provider operation: the value or thrown error, the remote
filesystem after the operation, the shell commands issued (in order), and the
change events fired. -/
structure OpOut (α : Type) where
  res : Except FsError α
  fs : FS
  trace : List String
  events : List (ChangeType × SpriteUri)
deriving Repr

/-! ## Whitespace, trimming and splitting -/

/-- Whitespace test used for the JavaScript `\s` class and `String.trim`
(restricted to the ASCII whitespace the modelled outputs can contain). -/
def isWs (c : Char) : Bool :=
  c = ' ' || c = '\t' || c = '\n' || c = '\r' || c = Char.ofNat 11 || c = Char.ofNat 12

/-- Embedding of JavaScript `String.prototype.trim` on character lists. -/
def trimChars (l : List Char) : List Char :=
  ((l.dropWhile isWs).reverse.dropWhile isWs).reverse

/-- Embedding of JavaScript `String.prototype.split(sep)` for a one-character
separator. -/
def splitOnChar (c : Char) (l : List Char) : List (List Char) :=
  l.foldr
    (fun x acc =>
      if x = c then [] :: acc
      else
        match acc with
        | [] => [[x]]
        | h :: t => (x :: h) :: t)
    [[]]

/-! ## Base64

`writeFile` encodes with Node's `Buffer.toString('base64')` and the remote
`base64 -d` decodes; `readFile` lets the remote `base64` encode and decodes
with `atob` plus `charCodeAt`.  Both directions are modelled on byte lists:
`b64EncodeList` produces the padded, unbroken base64 character stream and
`b64DecodeChars` maps well-formed base64 text back to bytes. -/

/-- The base64 alphabet. -/
def b64Alphabet : List Char :=
  ("ABCDEFGHIJKLMNOPQRSTUVWXYZabcdefghijklmnopqrstuvwxyz0123456789+/").data

/-- Character for a six-bit group. -/
def b64Char (n : Nat) : Char := b64Alphabet.getD n 'A'

/-- Six-bit value of an alphabet character. -/
def b64Index (c : Char) : Nat := b64Alphabet.indexOf c

/-- Base64 encoding of a byte list, three bytes to four characters, with
trailing `=` padding. -/
def b64EncodeList : List Nat → List Char
  | [] => []
  | [a] => [b64Char (a / 4), b64Char (a % 4 * 16), '=', '=']
  | [a, b] => [b64Char (a / 4), b64Char (a % 4 * 16 + b / 16), b64Char (b % 16 * 4), '=']
  | a :: b :: c :: rest =>
      b64Char (a / 4) :: b64Char (a % 4 * 16 + b / 16) ::
      b64Char (b % 16 * 4 + c / 64) :: b64Char (c % 64) :: b64EncodeList rest

/-- Base64 decoding of well-formed base64 text (four characters to three
bytes, honouring `=` padding); the composition of `atob` with per-character
`charCodeAt` from `readFile` (src lines 144-148). -/
def b64DecodeChars : List Char → List Nat
  | c1 :: c2 :: c3 :: c4 :: rest =>
      if c3 = '=' then
        [b64Index c1 * 4 + b64Index c2 / 16]
      else if c4 = '=' then
        [b64Index c1 * 4 + b64Index c2 / 16,
         b64Index c2 % 16 * 16 + b64Index c3 / 4]
      else
        (b64Index c1 * 4 + b64Index c2 / 16) ::
        (b64Index c2 % 16 * 16 + b64Index c3 / 4) ::
        (b64Index c3 % 4 * 64 + b64Index c4) ::
        b64DecodeChars rest
  | _ => []

theorem b64Index_b64Char : ∀ n, n < 64 → b64Index (b64Char n) = n := by decide

theorem b64Alphabet_length : b64Alphabet.length = 64 := by decide

theorem b64Char_ne_pad : ∀ n, b64Char n ≠ '=' := by
  intro n
  by_cases h : n < 64
  · exact (by decide : ∀ m, m < 64 → b64Char m ≠ '=') n h
  · unfold b64Char
    rw [List.getD_eq_default _ _ (by rw [b64Alphabet_length]; omega)]
    decide

theorem isWs_b64Char : ∀ n, isWs (b64Char n) = false := by
  intro n
  by_cases h : n < 64
  · exact (by decide : ∀ m, m < 64 → isWs (b64Char m) = false) n h
  · unfold b64Char
    rw [List.getD_eq_default _ _ (by rw [b64Alphabet_length]; omega)]
    decide

/-- Decoding inverts encoding on byte lists. -/
theorem b64_roundtrip : ∀ b : List Nat, (∀ x ∈ b, x < 256) →
    b64DecodeChars (b64EncodeList b) = b
  | [], _ => rfl
  | [a], h => by
      have ha : a < 256 := h a (by simp)
      show b64DecodeChars [b64Char (a / 4), b64Char (a % 4 * 16), '=', '='] = [a]
      simp only [b64DecodeChars, if_pos rfl, if_true,
        b64Index_b64Char (a / 4) (by omega : a / 4 < 64),
        b64Index_b64Char (a % 4 * 16) (by omega : a % 4 * 16 < 64)]
      congr 1
      omega
  | [a, b], h => by
      have ha : a < 256 := h a (by simp)
      have hb : b < 256 := h b (by simp)
      show b64DecodeChars
        [b64Char (a / 4), b64Char (a % 4 * 16 + b / 16), b64Char (b % 16 * 4), '='] = [a, b]
      simp only [b64DecodeChars, if_neg (b64Char_ne_pad (b % 16 * 4)), if_pos rfl, if_true,
        b64Index_b64Char (a / 4) (by omega : a / 4 < 64),
        b64Index_b64Char (a % 4 * 16 + b / 16) (by omega : a % 4 * 16 + b / 16 < 64),
        b64Index_b64Char (b % 16 * 4) (by omega : b % 16 * 4 < 64)]
      congr 1
      · omega
      · congr 1
        omega
  | a :: b :: c :: rest, h => by
      have ha : a < 256 := h a (by simp)
      have hb : b < 256 := h b (by simp)
      have hc : c < 256 := h c (by simp)
      have hrest : ∀ x ∈ rest, x < 256 := fun x hx => h x (by simp [hx])
      show b64DecodeChars
        (b64Char (a / 4) :: b64Char (a % 4 * 16 + b / 16) ::
         b64Char (b % 16 * 4 + c / 64) :: b64Char (c % 64) :: b64EncodeList rest)
        = a :: b :: c :: rest
      simp only [b64DecodeChars, if_neg (b64Char_ne_pad (b % 16 * 4 + c / 64)),
        if_neg (b64Char_ne_pad (c % 64)),
        b64Index_b64Char (a / 4) (by omega : a / 4 < 64),
        b64Index_b64Char (a % 4 * 16 + b / 16) (by omega : a % 4 * 16 + b / 16 < 64),
        b64Index_b64Char (b % 16 * 4 + c / 64) (by omega : b % 16 * 4 + c / 64 < 64),
        b64Index_b64Char (c % 64) (by omega : c % 64 < 64)]
      have h1 : a / 4 * 4 + (a % 4 * 16 + b / 16) / 16 = a := by omega
      have h2 : (a % 4 * 16 + b / 16) % 16 * 16 + (b % 16 * 4 + c / 64) / 4 = b := by omega
      have h3 : (b % 16 * 4 + c / 64) % 4 * 64 + c % 64 = c := by omega
      rw [h1, h2, h3, b64_roundtrip rest hrest]

/-- No character of an encoding is whitespace. -/
theorem b64Encode_not_ws : ∀ b : List Nat, ∀ c ∈ b64EncodeList b, isWs c = false
  | [], _, hc => by simp [b64EncodeList] at hc
  | [a], c, hc => by
      simp only [b64EncodeList, List.mem_cons, List.not_mem_nil, or_false] at hc
      rcases hc with rfl | rfl | rfl | rfl
      · exact isWs_b64Char _
      · exact isWs_b64Char _
      · decide
      · decide
  | [a, b], c, hc => by
      simp only [b64EncodeList, List.mem_cons, List.not_mem_nil, or_false] at hc
      rcases hc with rfl | rfl | rfl | rfl
      · exact isWs_b64Char _
      · exact isWs_b64Char _
      · exact isWs_b64Char _
      · decide
  | a :: b :: d :: rest, c, hc => by
      simp only [b64EncodeList, List.mem_cons] at hc
      rcases hc with rfl | rfl | rfl | rfl | hmem
      · exact isWs_b64Char _
      · exact isWs_b64Char _
      · exact isWs_b64Char _
      · exact isWs_b64Char _
      · exact b64Encode_not_ws rest c hmem

/-- Stripping whitespace leaves an encoding unchanged. -/
theorem b64Encode_filter_ws (b : List Nat) :
    (b64EncodeList b).filter (fun c => !(isWs c)) = b64EncodeList b := by
  apply List.filter_eq_self.mpr
  intro c hc
  rw [b64Encode_not_ws b c hc]
  rfl

/-- An encoding is empty exactly for the empty byte list. -/
theorem b64Encode_eq_nil_iff : ∀ b : List Nat, b64EncodeList b = [] ↔ b = []
  | [] => by simp [b64EncodeList]
  | [a] => by simp [b64EncodeList]
  | [a, b] => by simp [b64EncodeList]
  | a :: b :: c :: rest => by simp [b64EncodeList]

/-! ## Command strings

Each builder reproduces the corresponding template literal of the source
verbatim; the path (and, for `writeFile`, the base64 payload) is interpolated
with no escaping whatsoever, exactly as `"${path}"` does. -/

/-- Command built by `stat` (src line 51). -/
def statCmd (path : String) : String :=
  "stat -c '%F|%s|%Y|%X' \"" ++ path ++ "\" 2>/dev/null || echo \"NOTFOUND\""

/-- Command built by `readDirectory` (src line 87). -/
def lsCmd (path : String) : String :=
  "ls -1ApL \"" ++ path ++ "\" 2>/dev/null"

/-- Command built by `readFile` (src line 132). -/
def base64Cmd (path : String) : String :=
  "base64 \"" ++ path ++ "\" 2>/dev/null"

/-- Follow-up existence check of `readFile` (src line 137). -/
def testFileCmd (path : String) : String :=
  "test -f \"" ++ path ++ "\" && echo EXISTS"

/-- Existence check of `writeFile` (src line 164). -/
def testExistsCmd (path : String) : String :=
  "test -e \"" ++ path ++ "\" && echo EXISTS || echo NOTEXISTS"

/-- Destination existence check of `rename` (src line 236). -/
def testExistsRenameCmd (path : String) : String :=
  "test -e \"" ++ path ++ "\" && echo EXISTS"

/-- Command built by `writeFile`/`createDirectory` for the parent directory
(src lines 176, 199). -/
def mkdirCmd (dir : String) : String :=
  "mkdir -p \"" ++ dir ++ "\""

/-- Write command of `writeFile` (src line 180). -/
def writeCmd (b64 : String) (path : String) : String :=
  "echo \"" ++ b64 ++ "\" | base64 -d > \"" ++ path ++ "\""

/-- Command built by `delete` (src line 216). -/
def rmCmd (flags : String) (path : String) : String :=
  "rm " ++ flags ++ " \"" ++ path ++ "\""

/-- Command built by `rename` (src line 242). -/
def mvCmd (oldPath newPath : String) : String :=
  "mv \"" ++ oldPath ++ "\" \"" ++ newPath ++ "\""

/-! ## Remote command semantics

These model the stdout of the issued commands against the filesystem model;
they are environment models of the standard shell utilities, not repository
code. -/

/-- Boolean prefix test on strings via their character lists. -/
def strPrefix (p s : String) : Bool := p.data.isPrefixOf s.data

/-- Stdout of the `stat` command: the four `%F|%s|%Y|%X` fields for an
existing path, the `NOTFOUND` sentinel otherwise.  Timestamps are modelled
as `0`; no claim concerns their values. -/
def statOutput (fs : FS) (p : String) : List Char :=
  if p = "/" then ("directory|4096|0|0" ++ "\n").data
  else
    match lookupFS fs p with
    | some (.file c) => ("regular file|" ++ Nat.repr c.length ++ "|0|0" ++ "\n").data
    | some .dir => ("directory|4096|0|0" ++ "\n").data
    | none => ("NOTFOUND" ++ "\n").data

/-- Stdout of `base64 "path" 2>/dev/null`: the encoded content for a regular
file, empty output when the path is missing or a directory (the error goes
to the discarded stderr). -/
def b64ExecOut (fs : FS) (p : String) : List Char :=
  match lookupFS fs p with
  | some (.file c) => b64EncodeList c ++ ['\n']
  | _ => []

/-- Stdout of `test -f "path" && echo EXISTS`. -/
def testFileOut (fs : FS) (p : String) : List Char :=
  if isFileAt fs p then ("EXISTS" ++ "\n").data else []

/-- Stdout of `test -e "path" && echo EXISTS || echo NOTEXISTS`. -/
def testExistsOut (fs : FS) (p : String) : List Char :=
  if existsAt fs p then ("EXISTS" ++ "\n").data else ("NOTEXISTS" ++ "\n").data

/-- Stdout of `test -e "path" && echo EXISTS` (rename's variant). -/
def testExistsPlainOut (fs : FS) (p : String) : List Char :=
  if existsAt fs p then ("EXISTS" ++ "\n").data else []

/-- Embedding of the parent-directory computation of `writeFile` (src line
175): `path.substring(0, path.lastIndexOf('/')) || '/'`. -/
def parentOf (p : String) : String :=
  let r := p.data.reverse.dropWhile (fun c => c ≠ '/')
  match r with
  | [] => "/"
  | _ :: rest => if rest = [] then "/" else String.mk rest.reverse

/-- Directory chain created by `mkdir -p` for a normalized absolute path:
all prefixes of the component list. -/
def ancestorPaths (d : String) : List String :=
  let comps := (splitOnChar '/' d.data).filter (fun s => s ≠ [])
  (List.range comps.length).map fun i =>
    String.mk ('/' :: List.intercalate ['/'] (comps.take (i + 1)))

/-- The `mkdir -p` chain hits no existing regular file. -/
def noFileConflict (fs : FS) (d : String) : Bool :=
  (ancestorPaths d).all fun a =>
    match lookupFS fs a with
    | some (.file _) => false
    | _ => true

/-- Effect of `mkdir -p "d"`: creates the whole chain when no regular file
is in the way, otherwise fails (silently, stderr only) leaving the
filesystem unchanged. -/
def mkdirp (fs : FS) (d : String) : FS :=
  if noFileConflict fs d then
    (ancestorPaths d).foldl (fun f a => insertFS f a Entry.dir) fs
  else fs

/-- Effect of the redirected write `... > "path"`: stores the bytes when the
target is not a directory and its parent directory exists; otherwise the
redirect fails with only a shell diagnostic and nothing is written. -/
def redirectWrite (fs : FS) (parentDir p : String) (w : List Nat) : FS :=
  if isDirAt fs p then fs
  else if isDirAt fs parentDir then insertFS fs p (Entry.file w) else fs

/-- Effect of `rm -f` / `rm -rf`.  Without `-r` only a regular file is
removed; a directory target makes `rm` print an error (ignored) and remove
nothing, and `-f` silences the missing-target case.  With `-r` the entry and
everything below it are removed. -/
def rmApply (fs : FS) (p : String) (recursive : Bool) : FS :=
  if recursive then
    fs.filter fun pe => !(pe.1 == p || strPrefix (p ++ "/") pe.1)
  else
    match lookupFS fs p with
    | some (.file _) => fs.filter fun pe => !(pe.1 == p)
    | _ => fs

/-- Effect of `mv "old" "new"` when the destination does not exist: the entry
and everything below it are rebound under the new path; a missing source
only produces a diagnostic. -/
def mvApply (fs : FS) (oldP newP : String) : FS :=
  match lookupFS fs oldP with
  | none => fs
  | some _ =>
    let moved : FS := fs.filterMap fun pe =>
      if pe.1 == oldP then some (newP, pe.2)
      else if strPrefix (oldP ++ "/") pe.1 then
        some (newP ++ String.drop pe.1 oldP.length, pe.2)
      else none
    let kept : FS := fs.filter fun pe => !(pe.1 == oldP || strPrefix (oldP ++ "/") pe.1)
    moved ++ kept

/-! ## Operation translators -/

/-- Metadata returned by `stat`, mirroring `vscode.FileStat`. -/
structure FileStat where
  type : FileType
  ctime : Nat
  mtime : Nat
  size : Nat
deriving DecidableEq, Repr

/-- Embedding of JavaScript `parseInt(s, 10)`: leading whitespace skipped,
then a maximal digit run; no digits means `NaN`, modelled as `none`.  Signs
are not modelled; no claim exercises them. -/
def parseIntChars (s : List Char) : Option Nat :=
  let ds := (s.dropWhile isWs).takeWhile Char.isDigit
  if ds = [] then none
  else some (ds.foldl (fun acc c => acc * 10 + (c.toNat - 48)) 0)

/-- Embedding of JavaScript `String.prototype.includes`: the pattern occurs
contiguously somewhere in the string. -/
def containsSub (s pat : List Char) : Bool :=
  (List.range (s.length + 1)).any fun i => pat.isPrefixOf (s.drop i)

/-- Parsing phase of `stat` (src lines 52-72): trim, sentinel / empty check,
split on the `|` delimiter, numeric fallbacks (`|| 0`, `|| Date.now()`,
modelled by the `now` parameter), and substring classification of the kind. -/
def statParse (uri : SpriteUri) (raw : List Char) (now : Nat) : Except FsError FileStat :=
  let output := trimChars raw
  if output = ("NOTFOUND").data ∨ output = [] then
    .error (.fileNotFound uri)
  else
    let fields := splitOnChar '|' output
    let typeStr := fields.getD 0 []
    let size := (parseIntChars (fields.getD 1 [])).getD 0
    let mtime :=
      match parseIntChars (fields.getD 2 []) with
      | some n => if n * 1000 = 0 then now else n * 1000
      | none => now
    let ctime :=
      match parseIntChars (fields.getD 3 []) with
      | some n => if n * 1000 = 0 then now else n * 1000
      | none => now
    let ty :=
      if containsSub typeStr ("directory").data then FileType.directory
      else if containsSub typeStr ("regular").data || containsSub typeStr ("file").data then
        FileType.file
      else if containsSub typeStr ("symbolic link").data then FileType.symbolicLink
      else FileType.unknown
    .ok ⟨ty, ctime, mtime, size⟩

/-- The `stat` translator over a transport outcome: a transport failure is
caught and mapped to `Unavailable` with the underlying message (src lines
73-78); an execution result goes through `statParse`. -/
def statOnExec (uri : SpriteUri) (r : Except String (List Char)) (now : Nat) :
    Except FsError FileStat :=
  match r with
  | .error msg => .error (.unavailable msg)
  | .ok out => statParse uri out now

/-- Embedding of `stat` (src lines 45-79) against the filesystem model. -/
def stat (fs : FS) (uri : SpriteUri) (now : Nat) : OpOut FileStat :=
  let path := (parseUri uri).2
  ⟨statOnExec uri (.ok (statOutput fs path)) now, fs, [statCmd path], []⟩

/-- Indicator handling of one listing line (src lines 98-113): the branches
mirror the `endsWith` chain (`/` directory, `@` symlink, `*` executable,
`|`/`=` socket or fifo, otherwise plain file), stripping the indicator. -/
def classifyLine (line : List Char) : List Char × FileType :=
  if line.getLast? = some '/' then (line.dropLast, .directory)
  else if line.getLast? = some '@' then (line.dropLast, .symbolicLink)
  else if line.getLast? = some '*' then (line.dropLast, .file)
  else if line.getLast? = some '|' ∨ line.getLast? = some '=' then (line.dropLast, .file)
  else (line, .file)

/-- One iteration of the listing loop (src lines 95-118): empty lines are
skipped, the indicator is stripped and mapped, and `.`/`..`/empty names are
dropped. -/
def parseLine (line : List Char) : Option (List Char × FileType) :=
  if line = [] then none
  else
    let nt := classifyLine line
    if nt.1 ≠ [] ∧ nt.1 ≠ ['.'] ∧ nt.1 ≠ ['.', '.'] then some nt else none

/-- Parsing phase of `readDirectory` (src lines 88-120): trim, empty output
maps to the empty listing, otherwise split into lines and process each. -/
def readDirectoryParse (raw : List Char) : List (List Char × FileType) :=
  let output := trimChars raw
  if output = [] then [] else (splitOnChar '\n' output).filterMap parseLine

/-- Embedding of `readDirectory` (src lines 81-124); `raw` is the stdout the
transport returned for the listing command. -/
def readDirectory (fs : FS) (uri : SpriteUri) (raw : List Char) :
    OpOut (List (List Char × FileType)) :=
  ⟨.ok (readDirectoryParse raw), fs, [lsCmd (parseUri uri).2], []⟩

/-- Embedding of `readFile` (src lines 126-156): base64 the remote file,
strip all whitespace; on empty output disambiguate an empty file from a
missing one with `test -f`, otherwise decode. -/
def readFile (fs : FS) (uri : SpriteUri) : OpOut (List Nat) :=
  let path := (parseUri uri).2
  let content := (b64ExecOut fs path).filter (fun c => !(isWs c))
  if content = [] then
    if trimChars (testFileOut fs path) = ("EXISTS").data then
      ⟨.ok [], fs, [base64Cmd path, testFileCmd path], []⟩
    else
      ⟨.error (.fileNotFound uri), fs, [base64Cmd path, testFileCmd path], []⟩
  else
    ⟨.ok (b64DecodeChars content), fs, [base64Cmd path], []⟩

/-- Embedding of `writeFile` (src lines 158-192): existence check, the
`create`/`overwrite` guards, `mkdir -p` on the parent, then the
base64-encoded redirect; fires `Changed` for a pre-existing path and
`Created` otherwise. -/
def writeFile (fs : FS) (uri : SpriteUri) (content : List Nat)
    (create overwrite : Bool) : OpOut Unit :=
  let path := (parseUri uri).2
  let ex : Bool := decide (trimChars (testExistsOut fs path) = ("EXISTS").data)
  if ex && !overwrite then
    ⟨.error (.fileExists uri), fs, [testExistsCmd path], []⟩
  else if !ex && !create then
    ⟨.error (.fileNotFound uri), fs, [testExistsCmd path], []⟩
  else
    let parentDir := parentOf path
    let fs1 := mkdirp fs parentDir
    let written := b64DecodeChars (b64EncodeList content)
    let fs2 := redirectWrite fs1 parentDir path written
    ⟨.ok (), fs2,
      [testExistsCmd path, mkdirCmd parentDir,
        writeCmd (String.mk (b64EncodeList content)) path],
      [(if ex then ChangeType.changed else ChangeType.created, uri)]⟩

/-- Embedding of `delete` (src lines 210-222): one forced remove (`-f` or
`-rf`), then a `Deleted` event; the remote exit status is never inspected. -/
def delete (fs : FS) (uri : SpriteUri) (recursive : Bool) : OpOut Unit :=
  let path := (parseUri uri).2
  let flags := if recursive then "-rf" else "-f"
  ⟨.ok (), rmApply fs path recursive, [rmCmd flags path],
    [(ChangeType.deleted, uri)]⟩

/-- Embedding of `rename` (src lines 224-254): cross-sprite moves are
rejected with `NoPermissions` before any command; without `overwrite` a
destination existence check precedes the single `mv`. -/
def rename (fs : FS) (oldUri newUri : SpriteUri) (overwrite : Bool) : OpOut Unit :=
  let oldS := (parseUri oldUri).1
  let newS := (parseUri newUri).1
  let oldPath := (parseUri oldUri).2
  let newPath := (parseUri newUri).2
  if oldS ≠ newS then
    ⟨.error (.noPermissions "Cannot move files between different Sprites"), fs, [], []⟩
  else if !overwrite then
    if trimChars (testExistsPlainOut fs newPath) = ("EXISTS").data then
      ⟨.error (.fileExists newUri), fs, [testExistsRenameCmd newPath], []⟩
    else
      ⟨.ok (), mvApply fs oldPath newPath,
        [testExistsRenameCmd newPath, mvCmd oldPath newPath],
        [(ChangeType.deleted, oldUri), (ChangeType.created, newUri)]⟩
  else
    ⟨.ok (), mvApply fs oldPath newPath, [mvCmd oldPath newPath],
      [(ChangeType.deleted, oldUri), (ChangeType.created, newUri)]⟩

/-! ## Helper lemmas -/

theorem lookup_insert (fs : FS) (p : String) (e : Entry) (q : String) :
    lookupFS (insertFS fs p e) q = if q = p then some e else lookupFS fs q := rfl

theorem existsCheck_eq (fs : FS) (p : String) :
    decide (trimChars (testExistsOut fs p) = ("EXISTS").data) = existsAt fs p := by
  cases hE : existsAt fs p <;> simp [testExistsOut, hE] <;> decide

theorem existsCheck_iff (fs : FS) (p : String) :
    trimChars (testExistsOut fs p) = ("EXISTS").data ↔ existsAt fs p = true := by
  cases hE : existsAt fs p <;> simp [testExistsOut, hE] <;> decide

theorem renameCheck_iff (fs : FS) (p : String) :
    trimChars (testExistsPlainOut fs p) = ("EXISTS").data ↔ existsAt fs p = true := by
  cases hE : existsAt fs p <;> simp [testExistsPlainOut, hE] <;> decide

theorem fileCheck_iff (fs : FS) (p : String) :
    trimChars (testFileOut fs p) = ("EXISTS").data ↔ isFileAt fs p = true := by
  cases hE : isFileAt fs p <;> simp [testFileOut, hE] <;> decide

theorem lookup_filter_none (pred : String × Entry → Bool) (q : String) :
    ∀ fs : FS, (∀ e, pred (q, e) = false) → lookupFS (fs.filter pred) q = none
  | [], _ => rfl
  | (k, e) :: t, h => by
      by_cases hk : pred (k, e) = true
      · rw [List.filter_cons_of_pos hk]
        have hq : ¬ q = k := by
          intro hqk
          subst hqk
          rw [h e] at hk
          exact Bool.false_ne_true hk
        rw [lookupFS, if_neg hq]
        exact lookup_filter_none pred q t h
      · rw [List.filter_cons_of_neg hk]
        exact lookup_filter_none pred q t h

theorem lookup_foldl_insertDir (q : String) :
    ∀ (l : List String) (fs : FS),
      lookupFS (l.foldl (fun f a => insertFS f a Entry.dir) fs) q =
        if q ∈ l then some Entry.dir else lookupFS fs q
  | [], fs => by simp
  | x :: xs, fs => by
      rw [List.foldl_cons, lookup_foldl_insertDir q xs (insertFS fs x Entry.dir)]
      by_cases hx : q ∈ xs
      · rw [if_pos hx, if_pos (List.mem_cons_of_mem x hx)]
      · rw [if_neg hx, lookup_insert]
        by_cases hq : q = x
        · rw [if_pos hq, if_pos (by simp [hq])]
        · rw [if_neg hq, if_neg (by simp [hq, hx])]

/-! ## Claim theorems -/

/-- Claim C1: the claim says every path inserted into a built shell command
is escaped so that embedded `"`, backtick and `$` are neutralized.  The
builders interpolate the raw path verbatim, so a path containing `$(...)`
or `"` appears unchanged inside the double-quoted argument: the commands
below contain the injection payloads character for character. -/
theorem C1_paths_interpolated_unescaped :
    statCmd "/tmp/a$(touch /tmp/pwn)" =
      "stat -c '%F|%s|%Y|%X' \"/tmp/a$(touch /tmp/pwn)\" 2>/dev/null || echo \"NOTFOUND\"" ∧
    '$' ∈ (statCmd "/tmp/a$(touch /tmp/pwn)").data ∧
    rmCmd "-rf" "/x\"; touch /tmp/pwn; \"x" = "rm -rf \"/x\"; touch /tmp/pwn; \"x\"" ∧
    '"' ∈ (base64Cmd "/x\"; touch /tmp/pwn; \"x").data.drop 8 := by
  refine ⟨by decide, by decide, by decide, by decide⟩

/-- Claim C3: a rename across two distinct sprite names fails immediately
with the permission-denied error, leaves the filesystem unchanged, issues no
remote command and fires no event, for any paths and either overwrite flag. -/
theorem C3_rename_cross_sprite (fs : FS) (oldUri newUri : SpriteUri) (overwrite : Bool)
    (h : oldUri.authority ≠ newUri.authority) :
    rename fs oldUri newUri overwrite =
      ⟨.error (.noPermissions "Cannot move files between different Sprites"), fs, [], []⟩ := by
  simp [rename, parseUri, h]

theorem C3_rename_cross_sprite_witness :
    (SpriteUri.mk "a" "/x").authority ≠ (SpriteUri.mk "b" "/y").authority ∧
    rename [] (SpriteUri.mk "a" "/x") (SpriteUri.mk "b" "/y") true =
      ⟨.error (.noPermissions "Cannot move files between different Sprites"), [], [], []⟩ :=
  ⟨by decide, C3_rename_cross_sprite [] (SpriteUri.mk "a" "/x") (SpriteUri.mk "b" "/y") true
    (by decide)⟩

/-- Claim C10: `delete` never fails: for every filesystem, locator and both
values of `recursive`, the single remove command carries the force flag
(`-f` or `-rf`), the provider reports success, and exactly one `Deleted`
event is fired — even when nothing exists at the path. -/
theorem C10_delete_always_succeeds (fs : FS) (uri : SpriteUri) (recursive : Bool) :
    (delete fs uri recursive).res = .ok () ∧
    (delete fs uri recursive).trace =
      [rmCmd (if recursive then "-rf" else "-f") (parseUri uri).2] ∧
    (delete fs uri recursive).events = [(ChangeType.deleted, uri)] :=
  ⟨rfl, rfl, rfl⟩

/-- Claim C8 counterexample: deleting a non-empty directory with
`recursive = false` does not fail — the provider reports success (the
remote `rm -f` failure is reflected only in the ignored stderr) and the
directory and its child are still present afterwards. -/
theorem C8_counterexample :
    (delete [("/d", Entry.dir), ("/d/x", Entry.file [1])] (SpriteUri.mk "s" "/d") false).res =
      .ok () ∧
    lookupFS (delete [("/d", Entry.dir), ("/d/x", Entry.file [1])]
      (SpriteUri.mk "s" "/d") false).fs "/d" = some Entry.dir ∧
    lookupFS (delete [("/d", Entry.dir), ("/d/x", Entry.file [1])]
      (SpriteUri.mk "s" "/d") false).fs "/d/x" = some (Entry.file [1]) := by
  refine ⟨rfl, by decide, by decide⟩

/-- Claim C8 (amended): on a directory, `delete` with `recursive = false`
completes without error but removes nothing (the non-recursive `rm -f`
refuses directories and the exit status is ignored), while
`recursive = true` removes the directory together with everything below it;
in both cases exactly one `Deleted` event is fired for the locator. -/
theorem C8_delete_directory (fs : FS) (uri : SpriteUri)
    (h : lookupFS fs (parseUri uri).2 = some Entry.dir) :
    (delete fs uri false).res = .ok () ∧
    (delete fs uri false).fs = fs ∧
    (delete fs uri false).events = [(ChangeType.deleted, uri)] ∧
    (delete fs uri true).res = .ok () ∧
    (delete fs uri true).events = [(ChangeType.deleted, uri)] ∧
    lookupFS (delete fs uri true).fs (parseUri uri).2 = none ∧
    (∀ q, strPrefix ((parseUri uri).2 ++ "/") q = true →
      lookupFS (delete fs uri true).fs q = none) := by
  refine ⟨rfl, ?_, rfl, rfl, rfl, ?_, ?_⟩
  · show rmApply fs (parseUri uri).2 false = fs
    rw [rmApply, if_neg (by simp), h]
  · show lookupFS (rmApply fs (parseUri uri).2 true) (parseUri uri).2 = none
    rw [rmApply, if_pos rfl]
    exact lookup_filter_none _ _ fs (fun e => by simp)
  · intro q hq
    show lookupFS (rmApply fs (parseUri uri).2 true) q = none
    rw [rmApply, if_pos rfl]
    exact lookup_filter_none _ _ fs (fun e => by simp [hq])

theorem C8_delete_directory_witness :
    lookupFS [("/d", Entry.dir), ("/d/x", Entry.file [2])] "/d" = some Entry.dir ∧
    (delete [("/d", Entry.dir), ("/d/x", Entry.file [2])] (SpriteUri.mk "s" "/d") false).fs =
      [("/d", Entry.dir), ("/d/x", Entry.file [2])] ∧
    lookupFS (delete [("/d", Entry.dir), ("/d/x", Entry.file [2])]
      (SpriteUri.mk "s" "/d") true).fs "/d" = none :=
  have H := C8_delete_directory [("/d", Entry.dir), ("/d/x", Entry.file [2])]
    (SpriteUri.mk "s" "/d") (by decide)
  ⟨by decide, H.2.1, H.2.2.2.2.2.1⟩

/-- Claim C6: for every path absent from the target, `stat` fails with
`FileNotFound` — the `NOTFOUND` sentinel from the command's `|| echo`
fallback maps to it — and a transport-level failure maps to `Unavailable`
carrying the underlying message. -/
theorem C6_stat_missing_and_transport :
    (∀ (fs : FS) (uri : SpriteUri) (now : Nat),
      existsAt fs (parseUri uri).2 = false →
      (stat fs uri now).res = .error (.fileNotFound uri)) ∧
    (∀ (uri : SpriteUri) (msg : String) (now : Nat),
      statOnExec uri (.error msg) now = .error (.unavailable msg)) := by
  constructor
  · intro fs uri now hE
    have hroot : ¬ (parseUri uri).2 = "/" := by
      intro hr
      simp [existsAt, hr] at hE
    have hnone : lookupFS fs (parseUri uri).2 = none := by
      cases hL : lookupFS fs (parseUri uri).2 with
      | none => rfl
      | some e => simp [existsAt, hL] at hE
    show statOnExec uri (.ok (statOutput fs (parseUri uri).2)) now = .error (.fileNotFound uri)
    rw [statOnExec, statOutput, if_neg hroot, hnone]
    show statParse uri (("NOTFOUND" ++ "\n").data) now = .error (.fileNotFound uri)
    rw [statParse,
      if_pos (Or.inl (by decide : trimChars (("NOTFOUND" ++ "\n").data) = ("NOTFOUND").data))]
  · intro uri msg now
    rfl

theorem C6_stat_missing_witness :
    existsAt [] (parseUri (SpriteUri.mk "s" "/nope")).2 = false ∧
    (stat [] (SpriteUri.mk "s" "/nope") 0).res =
      .error (.fileNotFound (SpriteUri.mk "s" "/nope")) ∧
    statOnExec (SpriteUri.mk "s" "/nope") (.error "boom") 0 = .error (.unavailable "boom") :=
  ⟨by decide, C6_stat_missing_and_transport.1 [] (SpriteUri.mk "s" "/nope") 0 (by decide),
    C6_stat_missing_and_transport.2 (SpriteUri.mk "s" "/nope") "boom" 0⟩

/-- Claim C7: the listing parser maps a trailing `/` to a directory entry,
`@` to a symbolic link, `*`, `|`, `=` and no indicator to a file, stripping
the indicator; empty lines and the `.`/`..` entries are skipped; empty
remote output parses to the empty listing, and otherwise the output is
processed line by line. -/
theorem C7_readDirectory_listing_parse :
    (∀ name : List Char, name ≠ [] → name ≠ ['.'] → name ≠ ['.', '.'] →
      parseLine (name ++ ['/']) = some (name, FileType.directory) ∧
      parseLine (name ++ ['@']) = some (name, FileType.symbolicLink) ∧
      parseLine (name ++ ['*']) = some (name, FileType.file) ∧
      parseLine (name ++ ['|']) = some (name, FileType.file) ∧
      parseLine (name ++ ['=']) = some (name, FileType.file) ∧
      (name.getLast? ≠ some '/' → name.getLast? ≠ some '@' → name.getLast? ≠ some '*' →
        name.getLast? ≠ some '|' → name.getLast? ≠ some '=' →
        parseLine name = some (name, FileType.file))) ∧
    parseLine [] = none ∧
    parseLine ['.'] = none ∧
    parseLine ['.', '.'] = none ∧
    parseLine ['.', '/'] = none ∧
    parseLine ['.', '.', '/'] = none ∧
    readDirectoryParse [] = [] ∧
    (∀ raw : List Char, trimChars raw ≠ [] →
      readDirectoryParse raw = (splitOnChar '\n' (trimChars raw)).filterMap parseLine) := by
  refine ⟨?_, by decide, by decide, by decide, by decide, by decide, by decide, ?_⟩
  · intro name h1 h2 h3
    refine ⟨?_, ?_, ?_, ?_, ?_, ?_⟩
    · simp [parseLine, classifyLine, List.getLast?_concat, List.dropLast_concat, h1, h2, h3]
    · simp [parseLine, classifyLine, List.getLast?_concat, List.dropLast_concat, h1, h2, h3]
    · simp [parseLine, classifyLine, List.getLast?_concat, List.dropLast_concat, h1, h2, h3]
    · simp [parseLine, classifyLine, List.getLast?_concat, List.dropLast_concat, h1, h2, h3]
    · simp [parseLine, classifyLine, List.getLast?_concat, List.dropLast_concat, h1, h2, h3]
    · intro h4 h5 h6 h7 h8
      simp [parseLine, classifyLine, h1, h2, h3, h4, h5, h6, h7, h8]
  · intro raw h
    simp only [readDirectoryParse, if_neg h]

theorem C7_readDirectory_listing_parse_witness :
    (['f', 'o', 'o'] : List Char) ≠ [] ∧
    parseLine (['f', 'o', 'o'] ++ ['/']) = some (['f', 'o', 'o'], FileType.directory) ∧
    parseLine (['f', 'o', 'o'] ++ ['@']) = some (['f', 'o', 'o'], FileType.symbolicLink) ∧
    parseLine ['f', 'o', 'o'] = some (['f', 'o', 'o'], FileType.file) :=
  have H := C7_readDirectory_listing_parse.1 ['f', 'o', 'o']
    (by decide) (by decide) (by decide)
  ⟨by decide, H.1, H.2.1,
    H.2.2.2.2.2 (by decide) (by decide) (by decide) (by decide) (by decide)⟩

/-- Reading a stored regular file returns its bytes: the remote base64 output
round-trips through whitespace stripping and decoding, and an empty file is
recovered through the `test -f` disambiguation. -/
theorem readFile_file (fs : FS) (uri : SpriteUri) (c : List Nat)
    (hb : ∀ x ∈ c, x < 256)
    (h : lookupFS fs (parseUri uri).2 = some (Entry.file c)) :
    (readFile fs uri).res = .ok c := by
  have hout : b64ExecOut fs (parseUri uri).2 = b64EncodeList c ++ ['\n'] := by
    simp [b64ExecOut, h]
  have hfile : isFileAt fs (parseUri uri).2 = true := by
    simp [isFileAt, h]
  by_cases hc : c = []
  · subst hc
    have hfil : (b64ExecOut fs (parseUri uri).2).filter (fun x => !(isWs x)) = [] := by
      rw [hout]
      decide
    have hx : trimChars (testFileOut fs (parseUri uri).2) = ("EXISTS").data :=
      (fileCheck_iff _ _).mpr hfile
    simp only [readFile, if_pos hfil, if_pos hx]
  · have hne : b64EncodeList c ≠ [] := fun hx => hc ((b64Encode_eq_nil_iff c).mp hx)
    have hfil : (b64ExecOut fs (parseUri uri).2).filter (fun x => !(isWs x)) =
        b64EncodeList c := by
      rw [hout, List.filter_append, b64Encode_filter_ws]
      rw [show (['\n'].filter fun x => !(isWs x)) = [] from by decide, List.append_nil]
    have hfne : (b64ExecOut fs (parseUri uri).2).filter (fun x => !(isWs x)) ≠ [] := by
      rw [hfil]
      exact hne
    simp only [readFile, if_neg hfne]
    rw [hfil, b64_roundtrip c hb]

/-- Claim C2: writing any byte sequence with `create = true, overwrite =
true` succeeds and a subsequent `readFile` of the same locator returns
exactly those bytes, including the empty sequence and null bytes.  The
hypotheses say the locator is writable: the `mkdir -p` chain of the parent
is not blocked by a regular file, the target itself is not a directory, and
the path is a normalized absolute path (it does not coincide with one of its
parent's ancestors, and the parent is recovered by its own component
chain). -/
theorem C2_write_read_roundtrip (fs : FS) (uri : SpriteUri) (b : List Nat)
    (hb : ∀ x ∈ b, x < 256)
    (h1 : noFileConflict fs (parentOf (parseUri uri).2) = true)
    (h2 : isDirAt fs (parseUri uri).2 = false)
    (h3 : (parseUri uri).2 ∉ ancestorPaths (parentOf (parseUri uri).2))
    (h4 : parentOf (parseUri uri).2 = "/" ∨
      parentOf (parseUri uri).2 ∈ ancestorPaths (parentOf (parseUri uri).2)) :
    (writeFile fs uri b true true).res = .ok () ∧
    (readFile (writeFile fs uri b true true).fs uri).res = .ok b := by
  constructor
  · simp [writeFile]
  · have hfs : (writeFile fs uri b true true).fs =
        redirectWrite (mkdirp fs (parentOf (parseUri uri).2)) (parentOf (parseUri uri).2)
          (parseUri uri).2 (b64DecodeChars (b64EncodeList b)) := by
      simp [writeFile]
    have hmk : mkdirp fs (parentOf (parseUri uri).2) =
        (ancestorPaths (parentOf (parseUri uri).2)).foldl
          (fun f a => insertFS f a Entry.dir) fs := by
      rw [mkdirp, if_pos h1]
    have hlook : lookupFS (mkdirp fs (parentOf (parseUri uri).2)) (parseUri uri).2 =
        lookupFS fs (parseUri uri).2 := by
      rw [hmk, lookup_foldl_insertDir, if_neg h3]
    have hproot : ¬ (parseUri uri).2 = "/" := by
      intro hr
      simp [isDirAt, hr] at h2
    have hnd : ¬ lookupFS fs (parseUri uri).2 = some Entry.dir := by
      intro hd
      simp [isDirAt, hd] at h2
    have hdir1 : ¬ isDirAt (mkdirp fs (parentOf (parseUri uri).2)) (parseUri uri).2 = true := by
      simp [isDirAt, hlook, hproot, hnd]
    have hpdir : isDirAt (mkdirp fs (parentOf (parseUri uri).2))
        (parentOf (parseUri uri).2) = true := by
      rcases h4 with h4 | h4
      · simp [isDirAt, h4]
      · have hl : lookupFS (mkdirp fs (parentOf (parseUri uri).2))
            (parentOf (parseUri uri).2) = some Entry.dir := by
          rw [hmk, lookup_foldl_insertDir, if_pos h4]
        simp [isDirAt, hl]
    rw [hfs]
    simp only [redirectWrite]
    rw [if_neg hdir1, if_pos hpdir, b64_roundtrip b hb]
    exact readFile_file _ uri b hb (by rw [lookup_insert, if_pos rfl])

theorem C2_write_read_roundtrip_witness :
    (∀ x ∈ [(0 : Nat), 255, 10], x < 256) ∧
    (writeFile [] (SpriteUri.mk "box1" "/tmp/demo/a.txt") [0, 255, 10] true true).res =
      .ok () ∧
    (readFile (writeFile [] (SpriteUri.mk "box1" "/tmp/demo/a.txt") [0, 255, 10] true true).fs
      (SpriteUri.mk "box1" "/tmp/demo/a.txt")).res = .ok [0, 255, 10] ∧
    (writeFile [] (SpriteUri.mk "box1" "/e") [] true true).res = .ok () ∧
    (readFile (writeFile [] (SpriteUri.mk "box1" "/e") [] true true).fs
      (SpriteUri.mk "box1" "/e")).res = .ok [] :=
  have H1 := C2_write_read_roundtrip [] (SpriteUri.mk "box1" "/tmp/demo/a.txt") [0, 255, 10]
    (by decide) (by decide) (by decide) (by decide) (by decide)
  have H2 := C2_write_read_roundtrip [] (SpriteUri.mk "box1" "/e") []
    (by decide) (by decide) (by decide) (by decide) (by decide)
  ⟨by decide, H1.1, H1.2, H2.1, H2.2⟩

/-- Claim C4: `writeFile` with `create = false, overwrite = false` fails
with `FileExists` when the path exists and with `FileNotFound` when it does
not; in both cases the only command issued is the existence check, the
filesystem is untouched and no event is fired. -/
theorem C4_write_guards (fs : FS) (uri : SpriteUri) (b : List Nat) :
    (existsAt fs (parseUri uri).2 = true →
      writeFile fs uri b false false =
        ⟨.error (.fileExists uri), fs, [testExistsCmd (parseUri uri).2], []⟩) ∧
    (existsAt fs (parseUri uri).2 = false →
      writeFile fs uri b false false =
        ⟨.error (.fileNotFound uri), fs, [testExistsCmd (parseUri uri).2], []⟩) := by
  constructor
  · intro hE
    simp only [writeFile]
    rw [existsCheck_eq, hE]
    simp
  · intro hE
    simp only [writeFile]
    rw [existsCheck_eq, hE]
    simp

/-- Claim C5: a `readFile` whose base64 output is empty after stripping
whitespace issues the follow-up `test -f` check and exactly then returns the
empty byte sequence for an existing file and `FileNotFound` otherwise; with
non-empty output only the base64 command is issued. -/
theorem C5_readFile_empty_disambiguation :
    (∀ (fs : FS) (uri : SpriteUri),
      (b64ExecOut fs (parseUri uri).2).filter (fun c => !(isWs c)) = [] →
      (readFile fs uri).trace = [base64Cmd (parseUri uri).2, testFileCmd (parseUri uri).2] ∧
      (isFileAt fs (parseUri uri).2 = true → (readFile fs uri).res = .ok []) ∧
      (isFileAt fs (parseUri uri).2 = false →
        (readFile fs uri).res = .error (.fileNotFound uri))) ∧
    (∀ (fs : FS) (uri : SpriteUri),
      (b64ExecOut fs (parseUri uri).2).filter (fun c => !(isWs c)) ≠ [] →
      (readFile fs uri).trace = [base64Cmd (parseUri uri).2]) := by
  constructor
  · intro fs uri h
    by_cases hf : isFileAt fs (parseUri uri).2 = true
    · have hx : trimChars (testFileOut fs (parseUri uri).2) = ("EXISTS").data :=
        (fileCheck_iff _ _).mpr hf
      refine ⟨?_, fun _ => ?_, fun hff => ?_⟩
      · simp only [readFile, if_pos h, if_pos hx]
      · simp only [readFile, if_pos h, if_pos hx]
      · rw [hff] at hf
        exact absurd hf Bool.false_ne_true
    · have hx : ¬ trimChars (testFileOut fs (parseUri uri).2) = ("EXISTS").data :=
        fun hc => hf ((fileCheck_iff _ _).mp hc)
      refine ⟨?_, fun hff => absurd hff hf, fun _ => ?_⟩
      · simp only [readFile, if_pos h, if_neg hx]
      · simp only [readFile, if_pos h, if_neg hx]
  · intro fs uri h
    simp only [readFile, if_neg h]

theorem C5_readFile_empty_disambiguation_witness :
    (b64ExecOut [(("/e" : String), Entry.file [])]
      (parseUri (SpriteUri.mk "s" "/e")).2).filter (fun c => !(isWs c)) = [] ∧
    (readFile [(("/e" : String), Entry.file [])] (SpriteUri.mk "s" "/e")).res = .ok [] ∧
    (readFile [(("/e" : String), Entry.file [])] (SpriteUri.mk "s" "/e")).trace =
      [base64Cmd "/e", testFileCmd "/e"] ∧
    (readFile [] (SpriteUri.mk "s" "/e")).res =
      .error (.fileNotFound (SpriteUri.mk "s" "/e")) :=
  have H := C5_readFile_empty_disambiguation.1 [(("/e" : String), Entry.file [])]
    (SpriteUri.mk "s" "/e") (by decide)
  ⟨by decide, H.2.1 (by decide), H.1,
    (C5_readFile_empty_disambiguation.1 [] (SpriteUri.mk "s" "/e") (by decide)).2.2 (by decide)⟩

/-- Claim C9: with `overwrite = false` the destination existence check is
the first command issued; `rename` fails with `FileExists` when the
destination exists (no `mv` issued, no event), and otherwise the single `mv`
follows the check and the rename succeeds with the two events. -/
theorem C9_rename_no_overwrite (fs : FS) (oldUri newUri : SpriteUri)
    (h : oldUri.authority = newUri.authority) :
    (existsAt fs (parseUri newUri).2 = true →
      rename fs oldUri newUri false =
        ⟨.error (.fileExists newUri), fs, [testExistsRenameCmd (parseUri newUri).2], []⟩) ∧
    (existsAt fs (parseUri newUri).2 = false →
      rename fs oldUri newUri false =
        ⟨.ok (), mvApply fs (parseUri oldUri).2 (parseUri newUri).2,
          [testExistsRenameCmd (parseUri newUri).2,
            mvCmd (parseUri oldUri).2 (parseUri newUri).2],
          [(ChangeType.deleted, oldUri), (ChangeType.created, newUri)]⟩) := by
  have hs : ¬ (parseUri oldUri).1 ≠ (parseUri newUri).1 := by
    simp [parseUri, h]
  constructor
  · intro hE
    have hx : trimChars (testExistsPlainOut fs (parseUri newUri).2) = ("EXISTS").data :=
      (renameCheck_iff _ _).mpr hE
    simp only [rename, if_neg hs, Bool.not_false, if_pos rfl, if_true, if_pos hx]
  · intro hE
    have hx : ¬ trimChars (testExistsPlainOut fs (parseUri newUri).2) = ("EXISTS").data :=
      fun hc => by rw [(renameCheck_iff _ _).mp hc] at hE; exact absurd hE (by simp)
    simp only [rename, if_neg hs, Bool.not_false, if_pos rfl, if_true, if_neg hx]

theorem C9_rename_no_overwrite_witness :
    (SpriteUri.mk "s" "/a").authority = (SpriteUri.mk "s" "/b").authority ∧
    existsAt [(("/a" : String), Entry.file [7])] "/b" = false ∧
    rename [(("/a" : String), Entry.file [7])] (SpriteUri.mk "s" "/a") (SpriteUri.mk "s" "/b")
        false =
      ⟨.ok (), mvApply [(("/a" : String), Entry.file [7])] "/a" "/b",
        [testExistsRenameCmd "/b", mvCmd "/a" "/b"],
        [(ChangeType.deleted, SpriteUri.mk "s" "/a"),
          (ChangeType.created, SpriteUri.mk "s" "/b")]⟩ ∧
    rename [(("/b" : String), Entry.dir)] (SpriteUri.mk "s" "/a") (SpriteUri.mk "s" "/b")
        false =
      ⟨.error (.fileExists (SpriteUri.mk "s" "/b")), [(("/b" : String), Entry.dir)],
        [testExistsRenameCmd "/b"], []⟩ :=
  ⟨rfl, by decide,
    (C9_rename_no_overwrite [(("/a" : String), Entry.file [7])] (SpriteUri.mk "s" "/a")
      (SpriteUri.mk "s" "/b") rfl).2 (by decide),
    (C9_rename_no_overwrite [(("/b" : String), Entry.dir)] (SpriteUri.mk "s" "/a")
      (SpriteUri.mk "s" "/b") rfl).1 (by decide)⟩

theorem C4_write_guards_witness :
    existsAt [(("/a" : String), Entry.file [])] (parseUri (SpriteUri.mk "s" "/a")).2 = true ∧
    writeFile [(("/a" : String), Entry.file [])] (SpriteUri.mk "s" "/a") [7] false false =
      ⟨.error (.fileExists (SpriteUri.mk "s" "/a")), [(("/a" : String), Entry.file [])],
        [testExistsCmd "/a"], []⟩ ∧
    existsAt [] (parseUri (SpriteUri.mk "s" "/b")).2 = false ∧
    writeFile [] (SpriteUri.mk "s" "/b") [7] false false =
      ⟨.error (.fileNotFound (SpriteUri.mk "s" "/b")), [], [testExistsCmd "/b"], []⟩ :=
  ⟨by decide,
    (C4_write_guards [(("/a" : String), Entry.file [])] (SpriteUri.mk "s" "/a") [7]).1
      (by decide),
    by decide,
    (C4_write_guards [] (SpriteUri.mk "s" "/b") [7]).2 (by decide)⟩

end SpriteFS
